import Mathlib

/-!
A verification development for the hotornot-qualityscore application
(`src/app.py`), a head-to-head comparison service.  The Python source is
shallowly embedded: each Flask handler and helper becomes a pure Lean
function over explicit state.

* `get_sheets_data` (src/app.py lines 38-77): the freshness cache over the
  remote item ledger.  The remote fetch (Google-Sheets client plus record
  retrieval plus DataFrame processing) is abstracted as a `FetchOutcome`
  argument; everything after the fetch is translated line by line.
* `vote` / `tie` (lines 98-128): the outcome recorder.  The remote append is
  abstracted as an `AppendOutcome` argument; the vote ledger is carried as an
  explicit list.
* `admin` (lines 130-159): the aggregator.  `scoresOf` models
  `value_counts().to_dict()` followed by `sorted(..., key=lambda x: x[1],
  reverse=True)`: distinct results in first-encounter order, each paired with
  its count, stably sorted by count descending.  (The order among equal
  counts is not pinned down by the source; first-encounter order is the
  concretization used here, and no theorem below depends on it.)
  `pairwiseWins` models the insertion-ordered dict built in the row loop.
* The pair selection in `index` (lines 84-90): `random.sample(tweet_ids, 2)`
  draws two distinct positions; the draw is abstracted as a pair of indices.
-/

/-- A row of the Votes worksheet: `(id1, id2, result)`. -/
structure Vote where
  id1 : String
  id2 : String
  result : String
deriving DecidableEq

/-- The store invariant from the data model: `result` is `id1`, `id2`, or the
tie sentinel. -/
def validResult (v : Vote) : Prop :=
  v.result = v.id1 ∨ v.result = v.id2 ∨ v.result = "tie"

instance (v : Vote) : Decidable (validResult v) := by
  unfold validResult; infer_instance

/-- Outcome of the remote append in `vote`/`tie`: the client may be missing
(`get_google_sheets_client` returned `None`), the `open`/`append_row` call may
raise, or the append succeeds. -/
inductive AppendOutcome where
  | noClient
  | appendError
  | ok
deriving DecidableEq

/-- The only response either vote handler produces:
`redirect(url_for('index'))`. -/
inductive Response where
  | redirectIndex
deriving DecidableEq

/-- `vote` handler, src/app.py lines 98-112.  On a working client it appends
`[winner_id, loser_id, winner_id]`; any failure is caught (printed) and the
handler falls through to the same redirect. -/
def vote (winner_id loser_id : String) (store : List Vote)
    (outcome : AppendOutcome) : Response × List Vote :=
  match outcome with
  | .ok => (.redirectIndex, store ++ [⟨winner_id, loser_id, winner_id⟩])
  | .noClient => (.redirectIndex, store)
  | .appendError => (.redirectIndex, store)

/-- `tie` handler, src/app.py lines 114-128.  On a working client it appends
`[tweet1_id, tweet2_id, 'tie']`; any failure is caught and the handler falls
through to the same redirect. -/
def tie (tweet1_id tweet2_id : String) (store : List Vote)
    (outcome : AppendOutcome) : Response × List Vote :=
  match outcome with
  | .ok => (.redirectIndex, store ++ [⟨tweet1_id, tweet2_id, "tie"⟩])
  | .noClient => (.redirectIndex, store)
  | .appendError => (.redirectIndex, store)

/-- `votes_df[votes_df['result'] != 'tie']`, src/app.py line 142. -/
def decisive (log : List Vote) : List Vote :=
  log.filter (fun v => v.result != "tie")

/-- The `result` column of the filtered frame. -/
def resultsOf (log : List Vote) : List String :=
  (decisive log).map (fun v => v.result)

/-- Distinct elements in first-encounter order (the key order under the
value-counts dict). -/
def firstSeen (l : List String) : List String :=
  l.foldl (fun acc x => if x ∈ acc then acc else acc ++ [x]) []

/-- Stable sort, descending in the second component: the combined effect of
`value_counts()` and `sorted(scores.items(), key=lambda x: x[1],
reverse=True)`, src/app.py lines 143 and 157. -/
def sortDesc (l : List (String × Nat)) : List (String × Nat) :=
  List.insertionSort (fun a b => b.2 ≤ a.2) l

/-- `sorted_tweets`: each distinct result paired with its number of decisive
rows, sorted by count descending. -/
def scoresOf (log : List Vote) : List (String × Nat) :=
  sortDesc ((firstSeen (resultsOf log)).map
    (fun k => (k, (resultsOf log).count k)))

/-- `loser = row['id1'] if row['id2'] == winner else row['id2']`,
src/app.py line 149 (with `winner = row['result']`). -/
def loserOf (v : Vote) : String :=
  if v.id2 = v.result then v.id1 else v.id2

/-- One iteration of the `pairwise_wins` loop body, src/app.py lines
150-152: create the winner's entry if absent, then append the loser.
The association list keeps python-dict insertion order. -/
def addWin (pw : List (String × List String)) (w l : String) :
    List (String × List String) :=
  match pw with
  | [] => [(w, [l])]
  | (k, ls) :: rest =>
      if k = w then (k, ls ++ [l]) :: rest else (k, ls) :: addWin rest w l

/-- `pairwise_wins` after the loop over `wins_df.iterrows()`,
src/app.py lines 146-152. -/
def pairwiseWins (log : List Vote) : List (String × List String) :=
  (decisive log).foldl (fun pw v => addWin pw v.result (loserOf v)) []

/-- Python dict lookup on an insertion-ordered association list: the value at
the first (with unique keys, the only) entry for `k`. -/
def lookupKey {α : Type} (l : List (String × α)) (k : String) : Option α :=
  match l with
  | [] => none
  | (k0, v) :: rest => if k0 = k then some v else lookupKey rest k

/-- `scores.get(k)` on the aggregated, sorted scores. -/
def scoreOf (log : List Vote) (k : String) : Option Nat :=
  lookupKey (scoresOf log) k

/-- `pairwise_wins.get(k)` on the aggregated opponent map. -/
def oppsOf (log : List Vote) (k : String) : Option (List String) :=
  lookupKey (pairwiseWins log) k

/-- The vote log of the spec's worked example. -/
def demoLog : List Vote :=
  [⟨"A", "B", "A"⟩, ⟨"A", "C", "A"⟩, ⟨"B", "C", "tie"⟩, ⟨"C", "A", "C"⟩]

/-- C1: on the log `[(A,B,A), (A,C,A), (B,C,tie), (C,A,C)]` aggregation
yields `scores = [(A,2),(C,1)]` (descending) and
`pairwise_wins = {A: [B, C], C: [A]}`; deleting the tie row changes
neither, so the tie contributes no win count and no opponent entry. -/
theorem aggregate_demo_log :
    scoresOf demoLog = [("A", 2), ("C", 1)] ∧
    pairwiseWins demoLog = [("A", ["B", "C"]), ("C", ["A"])] ∧
    scoresOf [⟨"A", "B", "A"⟩, ⟨"A", "C", "A"⟩, ⟨"C", "A", "C"⟩] =
      scoresOf demoLog ∧
    pairwiseWins [⟨"A", "B", "A"⟩, ⟨"A", "C", "A"⟩, ⟨"C", "A", "C"⟩] =
      pairwiseWins demoLog := by
  refine ⟨by decide, by decide, by decide, by decide⟩

/-- The cached snapshot: `_cache = {'tweet_lookup': ..., 'tweet_ids': ...}`,
src/app.py line 71.  `tweet_lookup` is the insertion-ordered dict from id to
stripped text, `tweet_ids` the full id column. -/
structure Snapshot where
  tweet_lookup : List (String × String)
  tweet_ids : List String
deriving DecidableEq

/-- The module-level cache state: `_cache` (empty dict modelled as `none`)
and `_cache_time`, src/app.py lines 13-14. -/
structure CacheState where
  cache : Option Snapshot
  cache_time : Nat
deriving DecidableEq

/-- `CACHE_DURATION = 300`, src/app.py line 15. -/
def CACHE_DURATION : Nat := 300

/-- Outcome of the remote part of `get_sheets_data`: `failure` covers a
missing client (line 49) and any exception raised while opening the sheet,
reading records, or shaping the DataFrame (lines 75-77); `success data`
carries the fetched `(id, text)` rows. -/
inductive FetchOutcome where
  | failure
  | success : List (String × String) → FetchOutcome
deriving DecidableEq

/-- Python dict assignment `d[k] = v`: overwrite in place if the key exists,
else append. -/
def updateDict (d : List (String × String)) (k v : String) :
    List (String × String) :=
  match d with
  | [] => [(k, v)]
  | (k0, v0) :: rest =>
      if k0 = k then (k0, v) :: rest else (k0, v0) :: updateDict rest k v

/-- `pd.Series(df.text.values, index=df.id).to_dict()`: a dict keyed by id,
later rows overriding earlier ones, src/app.py line 67. -/
def toDict (rows : List (String × String)) : List (String × String) :=
  rows.foldl (fun d r => updateDict d r.1 r.2) []

/-- DataFrame shaping, src/app.py lines 62-68: ids kept as strings, text
stripped, then `tweet_lookup` and `tweet_ids` extracted. -/
def processRows (data : List (String × String)) : Snapshot :=
  { tweet_lookup := toDict (data.map (fun r => (r.1, r.2.trim)))
    tweet_ids := data.map (fun r => r.1) }

/-- The non-cached path of `get_sheets_data`, src/app.py lines 47-77: fetch,
return `{}, []` on failure or on an empty record set (the cache is untouched
in both cases), otherwise store the processed snapshot and stamp the time.
The boolean records that a remote fetch was attempted. -/
def fetchPath (s : CacheState) (now : Nat) (fetch : FetchOutcome) :
    Snapshot × CacheState × Bool :=
  match fetch with
  | .failure => (⟨[], []⟩, s, true)
  | .success data =>
      if data = [] then (⟨[], []⟩, s, true)
      else
        (processRows data, { cache := some (processRows data), cache_time := now }, true)

/-- `get_sheets_data`, src/app.py lines 38-77.  The cache is served when
`_cache` is truthy and younger than `CACHE_DURATION` (line 43); otherwise the
fetch path runs. -/
def get_sheets_data (s : CacheState) (now : Nat) (fetch : FetchOutcome) :
    Snapshot × CacheState × Bool :=
  match s.cache with
  | some snap =>
      if now - s.cache_time < CACHE_DURATION then (snap, s, false)
      else fetchPath s now fetch
  | none => fetchPath s now fetch

/-- Error outcome of the pair-selection check, src/app.py lines 84-86. -/
inductive PairError where
  | insufficientItems
deriving DecidableEq

/-- Pair selection in `index`, src/app.py lines 84-90: refuse item sets of
size < 2, otherwise return the items at two positions of the id list.  The
randomness of `random.sample(tweet_ids, 2)` is abstracted as the pair of
drawn positions `i`, `j`; `random.sample` guarantees the positions are in
range and distinct. -/
def select_pair (ids : List String) (i j : Nat) :
    Except PairError (String × String) :=
  if ids.length < 2 then .error .insufficientItems
  else .ok (ids.getD i "", ids.getD j "")

/-- C2 counterexample: when the remote append fails, the caller of `vote`
(and of `tie`) receives exactly the response a successful append produces —
the redirect to the index page — and the vote is lost; no failure value is
reported.  The claim that the failure is surfaced to the caller as a store
error is therefore false. -/
theorem vote_failure_counterexample :
    (vote "A" "B" [] .appendError).1 = (vote "A" "B" [] .ok).1 ∧
    (vote "A" "B" [] .appendError).2 = [] ∧
    (tie "A" "B" [] .appendError).1 = (tie "A" "B" [] .ok).1 ∧
    (tie "A" "B" [] .appendError).2 = [] := by
  refine ⟨rfl, rfl, rfl, rfl⟩

/-- C2 (amended): when the remote append fails — whether the client could
not be obtained or the append raised — `vote` and `tie` swallow the failure,
leave the store unchanged, and return the normal redirect; the process does
not crash, but the caller is not told of the failure. -/
theorem vote_tie_failure_swallowed (a b : String) (store : List Vote) :
    vote a b store .appendError = (.redirectIndex, store) ∧
    vote a b store .noClient = (.redirectIndex, store) ∧
    tie a b store .appendError = (.redirectIndex, store) ∧
    tie a b store .noClient = (.redirectIndex, store) := by
  refine ⟨rfl, rfl, rfl, rfl⟩

/-- C3 counterexample: it is not true that the third field of the row
appended by `vote` never equals the loser id — when the same id is submitted
as both winner and loser, the appended row's `result` equals the loser id. -/
theorem record_win_loser_counterexample :
    ¬ (∀ (w l : String) (store : List Vote),
        ((vote w l store .ok).2.getLast?.map (fun v => v.result)) ≠ some l) := by
  intro h
  exact h "X" "X" [] rfl

/-- C3 (amended): a successful `vote` appends exactly the row
`(winner_id, loser_id, winner_id)`; its third field is the winner id, it
differs from the loser id whenever the two submitted ids are distinct, and
the row satisfies the store invariant. -/
theorem record_win_appends_row (w l : String) (store : List Vote) :
    vote w l store .ok = (.redirectIndex, store ++ [⟨w, l, w⟩]) ∧
    (Vote.mk w l w).result = w ∧
    (w ≠ l → (Vote.mk w l w).result ≠ l) ∧
    validResult ⟨w, l, w⟩ := by
  exact ⟨rfl, rfl, fun h => h, Or.inl rfl⟩

/-- Witness for `record_win_appends_row` at `("X", "Y")`. -/
theorem record_win_appends_row_witness :
    vote "X" "Y" [] .ok = (.redirectIndex, [⟨"X", "Y", "X"⟩]) ∧
    (Vote.mk "X" "Y" "X").result ≠ "Y" ∧
    validResult ⟨"X", "Y", "X"⟩ := by
  obtain ⟨h1, _, h3, h4⟩ := record_win_appends_row "X" "Y" []
  exact ⟨h1, h3 (by decide), h4⟩

/-- C4 counterexample: it is not true that the third field of the row
appended by `tie` never equals `id1` or `id2` — when a submitted id is
itself the string `"tie"`, the sentinel coincides with it. -/
theorem record_tie_sentinel_counterexample :
    ¬ (∀ (a b : String) (store : List Vote),
        ((tie a b store .ok).2.getLast?.map (fun v => v.result)) ≠ some a) := by
  intro h
  exact h "tie" "B" [] rfl

/-- C4 (amended): a successful `tie` appends exactly the row
`(id1, id2, "tie")`; its third field is the literal tie sentinel, and it
differs from `id1` (resp. `id2`) whenever that id is not itself the string
`"tie"`. -/
theorem record_tie_appends_row (a b : String) (store : List Vote) :
    tie a b store .ok = (.redirectIndex, store ++ [⟨a, b, "tie"⟩]) ∧
    (Vote.mk a b "tie").result = "tie" ∧
    (a ≠ "tie" → (Vote.mk a b "tie").result ≠ a) ∧
    (b ≠ "tie" → (Vote.mk a b "tie").result ≠ b) := by
  exact ⟨rfl, rfl, fun h h2 => h h2.symm, fun h h2 => h h2.symm⟩

/-- Witness for `record_tie_appends_row` at `("X", "Y")`. -/
theorem record_tie_appends_row_witness :
    tie "X" "Y" [] .ok = (.redirectIndex, [⟨"X", "Y", "tie"⟩]) ∧
    (Vote.mk "X" "Y" "tie").result ≠ "X" ∧
    (Vote.mk "X" "Y" "tie").result ≠ "Y" := by
  obtain ⟨h1, _, h3, h4⟩ := record_tie_appends_row "X" "Y" []
  exact ⟨h1, h3 (by decide), h4 (by decide)⟩

/-- C5: on an id list with fewer than two entries the selection fails with
`insufficientItems`; on a duplicate-free list of size at least two, any draw
of two distinct in-range positions yields two ids that differ, both members
of the list. -/
theorem select_pair_spec (ids : List String) (i j : Nat) :
    (ids.length < 2 → select_pair ids i j = .error .insufficientItems) ∧
    (2 ≤ ids.length → ids.Nodup →
      ∀ (hi : i < ids.length) (hj : j < ids.length), i ≠ j →
      select_pair ids i j = .ok (ids.getD i "", ids.getD j "") ∧
      ids.getD i "" ≠ ids.getD j "" ∧
      ids.getD i "" ∈ ids ∧ ids.getD j "" ∈ ids) := by
  constructor
  · intro h
    simp [select_pair, h]
  · intro h2 hnd hi hj hij
    have hnl : ¬ ids.length < 2 := not_lt.mpr h2
    refine ⟨by simp [select_pair, hnl], ?_, ?_, ?_⟩
    · rw [List.getD_eq_getElem _ _ hi, List.getD_eq_getElem _ _ hj]
      intro heq
      exact hij (hnd.getElem_inj_iff.mp heq)
    · rw [List.getD_eq_getElem _ _ hi]; exact List.getElem_mem hi
    · rw [List.getD_eq_getElem _ _ hj]; exact List.getElem_mem hj

/-- Witness for `select_pair_spec`: the short-list branch at `["A"]` and the
selection branch at `["A", "B"]` with positions 0 and 1. -/
theorem select_pair_spec_witness :
    select_pair ["A"] 0 1 = .error .insufficientItems ∧
    select_pair ["A", "B"] 0 1 = .ok ("A", "B") ∧
    ("A" : String) ≠ "B" := by
  refine ⟨(select_pair_spec ["A"] 0 1).1 (by decide), ?_⟩
  obtain ⟨h1, h2, -⟩ :=
    (select_pair_spec ["A", "B"] 0 1).2 (by decide) (by decide)
      (by decide) (by decide) (by decide)
  exact ⟨h1, h2⟩

/-- C6: after a first `get_sheets_data` call that actually fetched and stored
a snapshot (cache was empty or expired, the fetch succeeded with at least one
row), any second call made less than `CACHE_DURATION` seconds after the
snapshot's stamp returns the same data, leaves the state unchanged, and
performs no remote fetch — whatever a fetch would have produced. -/
theorem cache_fresh_no_refetch (s0 : CacheState) (now1 now2 : Nat)
    (data : List (String × String)) (f2 : FetchOutcome)
    (hmiss : s0.cache = none ∨ CACHE_DURATION ≤ now1 - s0.cache_time)
    (hdata : data ≠ [])
    (hfresh : now2 - now1 < CACHE_DURATION) :
    get_sheets_data s0 now1 (.success data) =
      (processRows data,
        { cache := some (processRows data), cache_time := now1 }, true) ∧
    get_sheets_data
        ((get_sheets_data s0 now1 (.success data)).2.1) now2 f2 =
      ((get_sheets_data s0 now1 (.success data)).1,
        (get_sheets_data s0 now1 (.success data)).2.1, false) := by
  have hfirst : get_sheets_data s0 now1 (.success data) =
      (processRows data,
        { cache := some (processRows data), cache_time := now1 }, true) := by
    rcases hmiss with h | h
    · simp [get_sheets_data, h, fetchPath, hdata]
    · rcases hc : s0.cache with _ | snap
      · simp [get_sheets_data, hc, fetchPath, hdata]
      · simp [get_sheets_data, hc, not_lt.mpr h, fetchPath, hdata]
  refine ⟨hfirst, ?_⟩
  rw [hfirst]
  simp [get_sheets_data, hfresh]

/-- Witness for `cache_fresh_no_refetch`: empty initial cache, one row
fetched at time 10, second call at time 100 against a failing fetcher. -/
theorem cache_fresh_no_refetch_witness :
    get_sheets_data ⟨none, 0⟩ 10 (.success [("1", " hello ")]) =
      (processRows [("1", " hello ")],
        { cache := some (processRows [("1", " hello ")]), cache_time := 10 },
        true) ∧
    get_sheets_data
        ((get_sheets_data ⟨none, 0⟩ 10 (.success [("1", " hello ")])).2.1)
        100 .failure =
      ((get_sheets_data ⟨none, 0⟩ 10 (.success [("1", " hello ")])).1,
        (get_sheets_data ⟨none, 0⟩ 10 (.success [("1", " hello ")])).2.1,
        false) :=
  cache_fresh_no_refetch ⟨none, 0⟩ 10 100 [("1", " hello ")] .failure
    (Or.inl rfl) (by decide) (by decide)

/-- C7: when the call misses the cache and the remote fetch fails (no client,
or an exception while reading or shaping the data), `get_sheets_data` returns
the empty snapshot and the prior state untouched — the cached snapshot and
its timestamp survive, and no exception escapes (the embedding is total). -/
theorem fetch_failure_degrades (s : CacheState) (now : Nat)
    (hmiss : s.cache = none ∨ CACHE_DURATION ≤ now - s.cache_time) :
    get_sheets_data s now .failure = (⟨[], []⟩, s, true) := by
  rcases hmiss with h | h
  · simp [get_sheets_data, h, fetchPath]
  · rcases hc : s.cache with _ | snap
    · simp [get_sheets_data, hc, fetchPath]
    · simp [get_sheets_data, hc, not_lt.mpr h, fetchPath]

/-- Witness for `fetch_failure_degrades`: a stale non-empty cache at time
1000 with a failing fetch is returned empty but kept intact. -/
theorem fetch_failure_degrades_witness :
    get_sheets_data ⟨some ⟨[("1", "a")], ["1"]⟩, 0⟩ 1000 .failure =
      (⟨[], []⟩, ⟨some ⟨[("1", "a")], ["1"]⟩, 0⟩, true) :=
  fetch_failure_degrades ⟨some ⟨[("1", "a")], ["1"]⟩, 0⟩ 1000
    (Or.inr (by decide))

/-- C8 counterexample: a successful fetch that returns zero rows is *not*
stored as the new cached snapshot — on an empty cache the state stays
`none` (src/app.py lines 58-60 return before the cache update), contradicting
the claim that the fetched items always become the new snapshot. -/
theorem empty_fetch_counterexample :
    get_sheets_data ⟨none, 0⟩ 301 (.success []) =
      (⟨[], []⟩, ⟨none, 0⟩, true) ∧
    (get_sheets_data ⟨none, 0⟩ 301 (.success [])).2.1.cache ≠
      some (processRows []) := by
  refine ⟨rfl, by decide⟩

/-- C8 (amended): on a cache miss, a successful fetch with at least one row —
in particular a single-row fetch, still fewer than two items — is stored as
the new snapshot and returned; a successful fetch with zero rows returns the
empty snapshot and leaves the cache state unchanged. -/
theorem fetch_snapshot_update (s : CacheState) (now : Nat)
    (data : List (String × String))
    (hmiss : s.cache = none ∨ CACHE_DURATION ≤ now - s.cache_time) :
    (data = [] → get_sheets_data s now (.success data) = (⟨[], []⟩, s, true)) ∧
    (data ≠ [] → get_sheets_data s now (.success data) =
      (processRows data,
        { cache := some (processRows data), cache_time := now }, true)) := by
  have hpath : get_sheets_data s now (.success data) =
      fetchPath s now (.success data) := by
    rcases hmiss with h | h
    · simp [get_sheets_data, h]
    · rcases hc : s.cache with _ | snap
      · simp [get_sheets_data, hc]
      · simp [get_sheets_data, hc, not_lt.mpr h]
  constructor
  · intro h
    rw [hpath]; simp [fetchPath, h]
  · intro h
    rw [hpath]; simp [fetchPath, h]

/-- Witness for `fetch_snapshot_update`: both branches on an empty cache at
time 0 — a zero-row fetch leaves the state alone, a one-row fetch (fewer
than two items) is stored and returned. -/
theorem fetch_snapshot_update_witness :
    get_sheets_data ⟨none, 0⟩ 0 (.success []) = (⟨[], []⟩, ⟨none, 0⟩, true) ∧
    get_sheets_data ⟨none, 0⟩ 0 (.success [("7", " one ")]) =
      (processRows [("7", " one ")],
        { cache := some (processRows [("7", " one ")]), cache_time := 0 },
        true) := by
  refine
    ⟨(fetch_snapshot_update ⟨none, 0⟩ 0 [] (Or.inl rfl)).1 rfl,
     (fetch_snapshot_update ⟨none, 0⟩ 0 [("7", " one ")] (Or.inl rfl)).2
       (by decide)⟩

theorem lookupKey_eq_none_iff {α : Type} {l : List (String × α)} {k : String} :
    lookupKey l k = none ↔ ∀ p ∈ l, p.1 ≠ k := by
  induction l with
  | nil => simp [lookupKey]
  | cons p t ih =>
    rcases p with ⟨k0, v⟩
    by_cases hk : k0 = k
    · subst hk
      simp [lookupKey]
    · simp [lookupKey, hk, ih]

theorem lookupKey_mem_of_eq_some {α : Type} {l : List (String × α)}
    {k : String} {v : α} (h : lookupKey l k = some v) : (k, v) ∈ l := by
  induction l with
  | nil => simp [lookupKey] at h
  | cons p t ih =>
    rcases p with ⟨k0, v0⟩
    by_cases hk : k0 = k
    · subst hk
      simp [lookupKey] at h
      subst h
      exact List.mem_cons_self _ _
    · rw [lookupKey, if_neg hk] at h
      exact List.mem_cons_of_mem _ (ih h)

theorem lookupKey_eq_some_of_mem {α : Type} {l : List (String × α)}
    {k : String} {v : α} (hn : (l.map Prod.fst).Nodup) (hm : (k, v) ∈ l) :
    lookupKey l k = some v := by
  induction l with
  | nil => simp at hm
  | cons p t ih =>
    rcases p with ⟨k0, v0⟩
    simp only [List.map_cons, List.nodup_cons] at hn
    by_cases hk : k0 = k
    · subst hk
      rw [lookupKey, if_pos rfl]
      rcases List.mem_cons.mp hm with h | h
      · injection h with h1 h2
        rw [h2]
      · exact absurd (List.mem_map.mpr ⟨(k0, v), h, rfl⟩) hn.1
    · rw [lookupKey, if_neg hk]
      refine ih hn.2 ?_
      rcases List.mem_cons.mp hm with h | h
      · injection h with h1 h2
        exact absurd h1.symm hk
      · exact h

theorem lookupKey_sortDesc (l : List (String × Nat)) (k : String)
    (hn : (l.map Prod.fst).Nodup) :
    lookupKey (sortDesc l) k = lookupKey l k := by
  have hperm : List.Perm (sortDesc l) l := List.perm_insertionSort _ l
  rcases hv : lookupKey l k with _ | v
  · rw [lookupKey_eq_none_iff] at hv ⊢
    intro p hp
    exact hv p (hperm.mem_iff.mp hp)
  · have hn2 : ((sortDesc l).map Prod.fst).Nodup :=
      ((hperm.map Prod.fst).nodup_iff).mpr hn
    exact lookupKey_eq_some_of_mem hn2 (hperm.mem_iff.mpr
      (lookupKey_mem_of_eq_some hv))

theorem firstSeen_aux_mem (l : List String) (acc : List String) (x : String) :
    x ∈ l.foldl (fun a y => if y ∈ a then a else a ++ [y]) acc ↔
      x ∈ acc ∨ x ∈ l := by
  induction l generalizing acc with
  | nil => simp
  | cons y t ih =>
    simp only [List.foldl_cons]
    rw [ih]
    by_cases hy : y ∈ acc
    · simp only [if_pos hy, List.mem_cons]
      constructor
      · rintro (h | h)
        · exact Or.inl h
        · exact Or.inr (Or.inr h)
      · rintro (h | rfl | h)
        · exact Or.inl h
        · exact Or.inl hy
        · exact Or.inr h
    · simp only [if_neg hy, List.mem_append, List.mem_singleton, List.mem_cons]
      tauto

theorem firstSeen_aux_nodup (l : List String) (acc : List String)
    (h : acc.Nodup) :
    (l.foldl (fun a y => if y ∈ a then a else a ++ [y]) acc).Nodup := by
  induction l generalizing acc with
  | nil => simpa
  | cons y t ih =>
    simp only [List.foldl_cons]
    apply ih
    by_cases hy : y ∈ acc
    · simpa [hy]
    · rw [if_neg hy]
      simp [List.nodup_append, h, hy]

theorem firstSeen_mem (l : List String) (x : String) :
    x ∈ firstSeen l ↔ x ∈ l := by
  unfold firstSeen
  rw [firstSeen_aux_mem]
  simp

theorem firstSeen_nodup (l : List String) : (firstSeen l).Nodup :=
  firstSeen_aux_nodup l [] List.nodup_nil

/-- The sorted score list, read back as a dict: an id scores its number of
decisive rows when it won at least one, and is absent otherwise. -/
theorem scoreOf_eq (log : List Vote) (k : String) :
    scoreOf log k =
      if k ∈ resultsOf log then some ((resultsOf log).count k) else none := by
  unfold scoreOf scoresOf
  have hkeys : ((firstSeen (resultsOf log)).map
      (fun k => (k, (resultsOf log).count k))).map Prod.fst =
      firstSeen (resultsOf log) := by
    rw [List.map_map]
    exact List.map_id _
  have hnkeys : (((firstSeen (resultsOf log)).map
      (fun k => (k, (resultsOf log).count k))).map Prod.fst).Nodup := by
    rw [hkeys]
    exact firstSeen_nodup _
  rw [lookupKey_sortDesc _ _ hnkeys]
  by_cases hk : k ∈ resultsOf log
  · rw [if_pos hk]
    exact lookupKey_eq_some_of_mem hnkeys
      (List.mem_map.mpr ⟨k, (firstSeen_mem _ _).mpr hk, rfl⟩)
  · rw [if_neg hk]
    rw [lookupKey_eq_none_iff]
    intro p hp hpk
    obtain ⟨x, hx, rfl⟩ := List.mem_map.mp hp
    exact hk (hpk ▸ (firstSeen_mem _ _).mp hx)

theorem lookupKey_addWin_self (pw : List (String × List String))
    (w l : String) :
    lookupKey (addWin pw w l) w = some ((lookupKey pw w).getD [] ++ [l]) := by
  induction pw with
  | nil => simp [addWin, lookupKey]
  | cons p t ih =>
    rcases p with ⟨k, ls⟩
    by_cases hk : k = w
    · subst hk
      simp [addWin, lookupKey]
    · simp [addWin, lookupKey, hk, ih]

theorem lookupKey_addWin_other (pw : List (String × List String))
    (w l k : String) (h : k ≠ w) :
    lookupKey (addWin pw w l) k = lookupKey pw k := by
  induction pw with
  | nil =>
    have hw : w ≠ k := fun he => h he.symm
    simp [addWin, lookupKey, hw]
  | cons p t ih =>
    rcases p with ⟨k0, ls⟩
    by_cases hk : k0 = w
    · subst hk
      have hk0 : k0 ≠ k := fun he => h he.symm
      simp [addWin, lookupKey, hk0]
    · by_cases hk2 : k0 = k
      · subst hk2
        simp [addWin, lookupKey, hk]
      · simp [addWin, lookupKey, hk, hk2, ih]

theorem pairwise_fold_untouched (W : String) (vs : List Vote) :
    ∀ acc : List (String × List String), (∀ v ∈ vs, v.result ≠ W) →
      lookupKey (vs.foldl (fun pw v => addWin pw v.result (loserOf v)) acc) W =
        lookupKey acc W := by
  induction vs with
  | nil =>
    intro acc h
    rfl
  | cons v t ih =>
    intro acc h
    simp only [List.foldl_cons]
    rw [ih _ (fun u hu => h u (List.mem_cons_of_mem _ hu))]
    exact lookupKey_addWin_other _ _ _ _
      (fun he => h v (List.mem_cons_self _ _) he.symm)

theorem pairwise_fold_run (W : String) (vs : List Vote) :
    ∀ (acc : List (String × List String)) (ls : List String),
      (∀ v ∈ vs, v.result = W) → lookupKey acc W = some ls →
      lookupKey (vs.foldl (fun pw v => addWin pw v.result (loserOf v)) acc) W =
        some (ls ++ vs.map loserOf) := by
  induction vs with
  | nil =>
    intro acc ls h hacc
    simpa using hacc
  | cons v t ih =>
    intro acc ls h hacc
    simp only [List.foldl_cons]
    have hstep : lookupKey (addWin acc v.result (loserOf v)) W =
        some (ls ++ [loserOf v]) := by
      rw [h v (List.mem_cons_self _ _), lookupKey_addWin_self, hacc]
      rfl
    rw [ih _ _ (fun u hu => h u (List.mem_cons_of_mem _ hu)) hstep]
    simp

theorem decisive_append (l1 l2 : List Vote) :
    decisive (l1 ++ l2) = decisive l1 ++ decisive l2 :=
  List.filter_append ..

theorem decisive_of_all_decisive {l : List Vote}
    (h : ∀ v ∈ l, v.result ≠ "tie") : decisive l = l := by
  rw [decisive, List.filter_eq_self]
  intro v hv
  exact bne_iff_ne.mpr (h v hv)

theorem result_mem_resultsOf {log : List Vote} {x : String}
    (hx : x ∈ resultsOf log) : ∃ v ∈ log, v.result = x := by
  obtain ⟨v, hv, rfl⟩ := List.mem_map.mp hx
  exact ⟨v, List.mem_filter.mp hv |>.1, rfl⟩

theorem mem_of_mem_decisive {log : List Vote} {v : Vote}
    (h : v ∈ decisive log) : v ∈ log := by
  rw [decisive] at h
  exact (List.mem_filter.mp h).1

/-- C9: take any prior log in which an id `W` occurs nowhere (neither as a
contender nor as a result) and append any `N` decisive votes all won by `W`.
Aggregating the combined log scores `W` at exactly `N` and lists `W`'s
defeated opponents in the append order of the new votes, one per vote.  When
`N = 0` the aggregate has no entry for `W` at all: its win count is zero by
absence. -/
theorem round_trip_new_winner (prior new : List Vote) (W : String)
    (hW : W ≠ "tie")
    (hprior : ∀ v ∈ prior, v.id1 ≠ W ∧ v.id2 ≠ W ∧ v.result ≠ W)
    (hnew : ∀ v ∈ new, v.result = W) :
    (new = [] →
      scoreOf (prior ++ new) W = none ∧ oppsOf (prior ++ new) W = none) ∧
    (new ≠ [] →
      scoreOf (prior ++ new) W = some new.length ∧
      oppsOf (prior ++ new) W = some (new.map loserOf)) := by
  have hdecnew : decisive new = new :=
    decisive_of_all_decisive (fun v hv => by rw [hnew v hv]; exact hW)
  have hres : resultsOf (prior ++ new) =
      resultsOf prior ++ new.map (fun v => v.result) := by
    unfold resultsOf
    rw [decisive_append, hdecnew, List.map_append]
  have hWprior : W ∉ resultsOf prior := by
    intro hmem
    obtain ⟨v, hv, hvr⟩ := result_mem_resultsOf hmem
    exact (hprior v hv).2.2 hvr
  have hcount : (resultsOf (prior ++ new)).count W = new.length := by
    rw [hres, List.count_append, List.count_eq_zero.mpr hWprior]
    have hall : (new.map (fun v => v.result)).count W =
        (new.map (fun v => v.result)).length := by
      rw [List.count_eq_length]
      intro b hb
      obtain ⟨v, hv, rfl⟩ := List.mem_map.mp hb
      rw [hnew v hv]
    rw [hall, List.length_map, Nat.zero_add]
  have hpw : pairwiseWins (prior ++ new) =
      new.foldl (fun pw v => addWin pw v.result (loserOf v))
        (pairwiseWins prior) := by
    unfold pairwiseWins
    rw [decisive_append, hdecnew, List.foldl_append]
  have hpw0 : lookupKey (pairwiseWins prior) W = none := by
    unfold pairwiseWins
    rw [pairwise_fold_untouched W (decisive prior) []
      (fun v hv => (hprior v (mem_of_mem_decisive hv)).2.2)]
    rfl
  constructor
  · rintro rfl
    refine ⟨?_, ?_⟩
    · rw [List.append_nil, scoreOf_eq, if_neg hWprior]
    · show lookupKey (pairwiseWins (prior ++ [])) W = none
      rw [List.append_nil]
      exact hpw0
  · intro hne
    refine ⟨?_, ?_⟩
    · have hWmem : W ∈ resultsOf (prior ++ new) := by
        rw [hres]
        refine List.mem_append.mpr (Or.inr ?_)
        obtain ⟨v, t, rfl⟩ := List.exists_cons_of_ne_nil hne
        exact List.mem_map.mpr
          ⟨v, List.mem_cons_self _ _, hnew v (List.mem_cons_self _ _)⟩
      rw [scoreOf_eq, if_pos hWmem, hcount]
    · show lookupKey (pairwiseWins (prior ++ new)) W = _
      rw [hpw]
      obtain ⟨v, t, rfl⟩ := List.exists_cons_of_ne_nil hne
      simp only [List.foldl_cons]
      have hstep : lookupKey
          (addWin (pairwiseWins prior) v.result (loserOf v)) W =
          some [loserOf v] := by
        rw [hnew v (List.mem_cons_self _ _), lookupKey_addWin_self, hpw0]
        rfl
      rw [pairwise_fold_run W t _ _
        (fun u hu => hnew u (List.mem_cons_of_mem _ hu)) hstep]
      simp

/-- Witness for `round_trip_new_winner`: two decisive votes for the fresh id
`"W"` appended after a one-row prior log score `"W"` at 2 with opponents
`["B", "A"]` in append order. -/
theorem round_trip_new_winner_witness :
    scoreOf [⟨"A", "B", "A"⟩, ⟨"W", "B", "W"⟩, ⟨"W", "A", "W"⟩] "W" =
      some 2 ∧
    oppsOf [⟨"A", "B", "A"⟩, ⟨"W", "B", "W"⟩, ⟨"W", "A", "W"⟩] "W" =
      some ["B", "A"] := by
  have h := (round_trip_new_winner [⟨"A", "B", "A"⟩]
      [⟨"W", "B", "W"⟩, ⟨"W", "A", "W"⟩] "W"
      (by decide) (by decide) (by decide)).2 (by decide)
  rw [show ([⟨"A", "B", "A"⟩] ++ [⟨"W", "B", "W"⟩, ⟨"W", "A", "W"⟩] :
      List Vote) =
      [⟨"A", "B", "A"⟩, ⟨"W", "B", "W"⟩, ⟨"W", "A", "W"⟩] from rfl] at h
  refine ⟨?_, ?_⟩
  · rw [h.1]
    rfl
  · rw [h.2]
    decide

/-- C10: a decisive row `(id1, id2, result)` scores one win for the value of
`result`, and records as the defeated opponent `id1` when `id2` equals
`result` and `id2` otherwise; in particular a malformed decisive row whose
`result` matches neither contender still counts one win for `result` and
records `id2` as its defeated opponent. -/
theorem decisive_row_bookkeeping (v : Vote) (hd : v.result ≠ "tie") :
    scoresOf [v] = [(v.result, 1)] ∧
    pairwiseWins [v] =
      [(v.result, [if v.id2 = v.result then v.id1 else v.id2])] ∧
    (v.result ≠ v.id1 → v.result ≠ v.id2 →
      pairwiseWins [v] = [(v.result, [v.id2])]) := by
  have hdec : decisive [v] = [v] :=
    decisive_of_all_decisive
      (by intro u hu; rw [List.mem_singleton.mp hu]; exact hd)
  have hres : resultsOf [v] = [v.result] := by
    unfold resultsOf
    rw [hdec]
    rfl
  have hfs : firstSeen [v.result] = [v.result] := by
    simp [firstSeen]
  refine ⟨?_, ?_, ?_⟩
  · unfold scoresOf
    rw [hres, hfs]
    simp [sortDesc, List.insertionSort, List.orderedInsert]
  · unfold pairwiseWins
    rw [hdec]
    simp only [List.foldl_cons, List.foldl_nil]
    rw [show addWin [] v.result (loserOf v) = [(v.result, [loserOf v])]
      from rfl]
    rw [loserOf]
  · intro h1 h2
    unfold pairwiseWins
    rw [hdec]
    simp only [List.foldl_cons, List.foldl_nil]
    have hl : loserOf v = v.id2 := by
      rw [loserOf, if_neg (fun he => h2 he.symm)]
    rw [show addWin [] v.result (loserOf v) = [(v.result, [loserOf v])]
      from rfl, hl]

/-- Witness for `decisive_row_bookkeeping`: the malformed decisive row
`("A", "B", "Z")` scores one win for `"Z"` with opponent `"B"`. -/
theorem decisive_row_bookkeeping_witness :
    scoresOf [⟨"A", "B", "Z"⟩] = [("Z", 1)] ∧
    pairwiseWins [⟨"A", "B", "Z"⟩] = [("Z", ["B"])] := by
  obtain ⟨h1, -, h3⟩ := decisive_row_bookkeeping ⟨"A", "B", "Z"⟩ (by decide)
  exact ⟨h1, h3 (by decide) (by decide)⟩
